import Mathlib

/-!
Verification development for the REDasm listing renderer
(`src/redasm/disassembler/listing/listingrenderer.cpp`).

The renderer walks a line range of the listing document, dispatches each
listing item by kind and emits positioned, styled text fragments.  The
shallow embedding below translates each C++ method into a Lean function over
an explicit renderer state; external collaborators (document, printer,
format plugin, drawing backend) are modelled as fields of an environment
record.  Calls to the drawing backend's `fontUnit` are logged in a query
counter so that metric-measurement behaviour is observable.
-/

namespace REDasm

/-- `INDENT_WIDTH` macro from the source. -/
def INDENT_WIDTH : Nat := 2

/-- Modelled from the spec: listing item kinds (the `ListingItem` header is
not under `src/`).  The spec lists the kinds Segment, Function, Instruction
and "any other"; the renderer only compares the numeric `type` tag against
these constants, so they are modelled as distinct naturals. -/
def SegmentItem : Nat := 0

/-- Modelled from the spec: the Function item kind tag. -/
def FunctionItem : Nat := 1

/-- Modelled from the spec: the Instruction item kind tag. -/
def InstructionItem : Nat := 2

/-- A listing item: a numeric kind tag plus an address (spec §3). -/
structure ListingItem where
  type : Nat
  address : Nat
  deriving DecidableEq

instance : Inhabited ListingItem := ⟨⟨0, 0⟩⟩

/-- A segment: only its name is read by the renderer. -/
structure Segment where
  name : String
  deriving DecidableEq

/-- Modelled from the spec: an operand's type tags (the `Operand` header is
not under `src/`).  The renderer reads `index`, `isNumeric()` and the
`Memory`/`Displacement`/`Register` type flags, modelled as booleans. -/
structure Operand where
  index : Nat
  numeric : Bool
  memory : Bool
  displacement : Bool
  register : Bool
  deriving DecidableEq

/-- Modelled from the spec: an instruction (header not under `src/`): a
mnemonic, flags (read through `isInvalid()` / `is(...)`, modelled as
booleans), and the comment strings. -/
structure Instruction where
  mnemonic : String
  invalid : Bool
  stop : Bool
  nop : Bool
  call : Bool
  jump : Bool
  conditional : Bool
  comments : List String
  deriving DecidableEq

/-- One emitted draw command: position, style tag and text. -/
structure Fragment where
  x : Nat
  y : Nat
  style : String
  text : String
  deriving DecidableEq

instance : Inhabited Fragment := ⟨⟨0, 0, "", ""⟩⟩

/-- The per-call mutable cursor (`RendererFormat` in the source; the opaque
`userdata` passthrough is omitted as no claim observes it). -/
structure RendererFormat where
  x : Nat
  y : Nat
  fontwidth : Nat
  fontheight : Nat
  style : String
  text : String
  deriving DecidableEq

/-- Renderer state threaded through the embedding: the cursor, the persisted
comment column (`m_commentcolumn`), the emitted fragments in order, and a
counter of `fontUnit` queries made to the drawing backend. -/
structure RState where
  rf : RendererFormat
  commentcolumn : Nat
  frags : List Fragment
  fontQueries : Nat
  deriving DecidableEq

/-- The external collaborators: drawing backend metrics, format plugin bits,
the document (items, segments, instructions) and the printer callbacks. -/
structure Env where
  fontwidth : Nat
  fontheight : Nat
  bits : Nat
  items : List ListingItem
  segment : Nat → Option Segment
  instruction : Nat → Instruction
  segmentLines : Option Segment → List String
  functionParts : Nat → String × String × String
  outOps : Instruction → List (Operand × String × String)

/-- `m_document->itemAt(line)`. -/
def itemAt (env : Env) (line : Nat) : ListingItem :=
  env.items.getD line default

/-- `renderText`: emit the cursor's current text/style at the cursor
position (the output sink receives one draw command). -/
def renderText (st : RState) : RState :=
  { st with frags := st.frags ++ [⟨st.rf.x, st.rf.y, st.rf.style, st.rf.text⟩] }

/-- Assign the cursor style (`rf->style = ...` / `rf->style.clear()`). -/
def setStyle (st : RState) (s : String) : RState :=
  { st with rf := { st.rf with style := s } }

/-- Assign the cursor text (`rf->text = ...` / `rf->text.clear()`). -/
def setText (st : RState) (t : String) : RState :=
  { st with rf := { st.rf with text := t } }

/-- `rf->x += w`. -/
def advanceX (st : RState) (w : Nat) : RState :=
  { st with rf := { st.rf with x := st.rf.x + w } }

/-- The backend's `fontUnit(&w, &h)` query made at the start of `render`:
stores the metrics in the cursor and counts one backend query. -/
def fontUnit (env : Env) (st : RState) : RState :=
  { st with
    rf := { st.rf with fontwidth := env.fontwidth, fontheight := env.fontheight },
    fontQueries := st.fontQueries + 1 }

/-- `measureString`: queries `fontUnit(&w)` (counted) and returns
`s.size() * w` — the monospace width assumption. -/
def measureString (env : Env) (st : RState) (s : String) : RState × Nat :=
  ({ st with fontQueries := st.fontQueries + 1 }, s.length * env.fontwidth)

/-- `rf->x += this->measureString(s)`. -/
def measureAdvance (env : Env) (st : RState) (s : String) : RState :=
  let p := measureString env st s
  advanceX p.1 p.2

/-- Modelled from the spec: `REDasm::hex(address, bits, false)` (defined
outside `src/`): lower-case hexadecimal digits. -/
def hexDigitChar (n : Nat) : Char :=
  if n < 10 then Char.ofNat (48 + n) else Char.ofNat (97 + (n - 10))

/-- Modelled from the spec: exactly `w` hex digits of `v`, most significant
first, zero padded (spec §4.6). -/
def hexChars : Nat → Nat → List Char
  | _, 0 => []
  | v, Nat.succ w => hexChars (v / 16) w ++ [hexDigitChar (v % 16)]

/-- Modelled from the spec: the `HEX_ADDRESS` macro — lower-case hex,
zero-padded to exactly `bits/4` digits, no radix prefix (spec §4.6). -/
def hexAddress (env : Env) (addr : Nat) : String :=
  String.mk (hexChars addr (env.bits / 4))

/-- `ListingRenderer::commentString`: "# " then each comment, prefixing
`" | "` before every comment that differs from `comments.front()`. -/
def commentString (instr : Instruction) : String :=
  instr.comments.foldl
    (fun acc s => acc ++ (if s ≠ instr.comments.headD "" then " | " else "") ++ s)
    "# "

/-- `ListingRenderer::renderIndent`: `n * INDENT_WIDTH` spaces, unstyled,
advancing the cursor by the measured width. -/
def renderIndent (env : Env) (st : RState) (n : Nat) : RState :=
  let st := setStyle st ""
  let st := setText st (String.mk (List.replicate (n * INDENT_WIDTH) ' '))
  let st := renderText st
  measureAdvance env st st.rf.text

/-- `ListingRenderer::renderAddressIndent`: `bits/4 + |segment name| +
INDENT_WIDTH` spaces, unstyled. -/
def renderAddressIndent (env : Env) (item : ListingItem) (st : RState) : RState :=
  let count := env.bits / 4 +
    (match env.segment item.address with
     | some seg => seg.name.length
     | none => 0)
  let st := setStyle st ""
  let st := setText st (String.mk (List.replicate (count + INDENT_WIDTH) ' '))
  let st := renderText st
  measureAdvance env st st.rf.text

/-- `ListingRenderer::renderAddress`: `"<segment|unk>:<hex>"` with style
`address_fg`, advance by its width, then a single indent. -/
def renderAddress (env : Env) (item : ListingItem) (st : RState) : RState :=
  let name :=
    match env.segment item.address with
    | some seg => seg.name
    | none => "unk"
  let st := setStyle st "address_fg"
  let st := setText st (name ++ ":" ++ hexAddress env item.address)
  let st := renderText st
  let st := measureAdvance env st st.rf.text
  renderIndent env st 1

/-- `ListingRenderer::renderMnemonic`: style by flag priority (no assignment
when nothing matches), text = mnemonic + one space, advance by its width. -/
def renderMnemonic (env : Env) (instr : Instruction) (st : RState) : RState :=
  let st :=
    if instr.invalid then setStyle st "instruction_invalid"
    else if instr.stop then setStyle st "instruction_stop"
    else if instr.nop then setStyle st "instruction_nop"
    else if instr.call then setStyle st "instruction_call"
    else if instr.jump then
      (if instr.conditional then setStyle st "instruction_jmp_c"
       else setStyle st "instruction_jmp")
    else st
  let st := setText st (instr.mnemonic ++ " ")
  let st := renderText st
  measureAdvance env st st.rf.text

/-- The body of the `renderOperands` printer callback, for one
`(operand, opsize, opstr)` triple. -/
def renderOperandEntry (env : Env) (st : RState)
    (e : Operand × String × String) : RState :=
  let operand := e.1
  let opsize := e.2.1
  let opstr := e.2.2
  let st := setText st ""
  let st :=
    if operand.index > 0 then
      let st := setStyle st ""
      let st := setText st ", "
      let st := renderText st
      let st := advanceX st (st.rf.fontwidth * 2)
      setText st ""
    else st
  let st :=
    if operand.numeric then
      (if operand.memory then setStyle st "memory_fg"
       else setStyle st "immediate_fg")
    else if operand.displacement then setStyle st "displacement_fg"
    else if operand.register then setStyle st "register_fg"
    else st
  let st := if opsize ≠ "" then setText st (opsize ++ " ") else st
  let st := setText st (st.rf.text ++ opstr)
  let st := renderText st
  measureAdvance env st st.rf.text

/-- `ListingRenderer::renderOperands`: the printer delivers the operand
triples in order; each invokes the callback body. -/
def renderOperands (env : Env) (instr : Instruction) (st : RState) : RState :=
  (env.outOps instr).foldl (renderOperandEntry env) st

/-- `ListingRenderer::renderComments`: jump the cursor to
`(commentcolumn + INDENT_WIDTH) * fontwidth`, style `comment_fg`, text =
`commentString`. -/
def renderComments (_env : Env) (instr : Instruction) (st : RState) : RState :=
  let st := { st with rf :=
    { st.rf with x := (st.commentcolumn + INDENT_WIDTH) * st.rf.fontwidth } }
  let st := setStyle st "comment_fg"
  let st := setText st (commentString instr)
  renderText st

/-- `ListingRenderer::renderInstruction`: address, mnemonic, operands,
comment-column bookkeeping, then comments unless the list is empty. -/
def renderInstruction (env : Env) (item : ListingItem) (st : RState) : RState :=
  let instr := env.instruction item.address
  let st := renderAddress env item st
  let st := renderMnemonic env instr st
  let st := renderOperands env instr st
  let st :=
    if st.rf.x > st.commentcolumn then { st with commentcolumn := st.rf.x }
    else st
  if instr.comments.isEmpty then st
  else renderComments env instr st

/-- The body of the `renderFunction` printer callback for the
`(pre, sym, post)` parts. -/
def renderFunctionParts (env : Env) (pre sym post : String) (st : RState) : RState :=
  let st := setStyle st "function_fg"
  let st :=
    if pre ≠ "" then
      let st := renderText (setText st pre)
      measureAdvance env st pre
    else st
  let st := renderText (setText st sym)
  if post ≠ "" then
    let st := measureAdvance env st sym
    renderText (setText st post)
  else st

/-- `ListingRenderer::renderFunction`: address indent, then the printer's
`(pre, sym, post)` parts. -/
def renderFunction (env : Env) (item : ListingItem) (st : RState) : RState :=
  let st := renderAddressIndent env item st
  let parts := env.functionParts item.address
  renderFunctionParts env parts.1 parts.2.1 parts.2.2 st

/-- `ListingRenderer::renderSegment`: each printer callback line becomes a
`segment_fg` fragment at the unchanged cursor. -/
def renderSegment (env : Env) (item : ListingItem) (st : RState) : RState :=
  (env.segmentLines (env.segment item.address)).foldl
    (fun st line => renderText (setText (setStyle st "segment_fg") line)) st

/-- One iteration of the `render` loop: reset the cursor to row `i`, then
dispatch on the item kind; unrecognized kinds fall back to a single
`"Unknown Type: <type>"` fragment. -/
def renderRow (env : Env) (i line : Nat) (st : RState) : RState :=
  let item := itemAt env line
  let st := { st with rf := { st.rf with x := 0, y := i * st.rf.fontheight } }
  if item.type = SegmentItem then renderSegment env item st
  else if item.type = FunctionItem then renderFunction env item st
  else if item.type = InstructionItem then renderInstruction env item st
  else renderText (setText st ("Unknown Type: " ++ toString item.type))

/-- The `render` loop: rows `i, i+1, ...` for `n` iterations starting at
line `start + i`. -/
def renderRows (env : Env) (start : Nat) : Nat → Nat → RState → RState
  | _, 0, st => st
  | i, Nat.succ m, st => renderRows env start (i + 1) m (renderRow env i (start + i) st)

/-- The `size_t` wraparound modulus, 2^64: the source computes
`size_t end = start + count`, which wraps modulo 2^64. -/
def sizeTMod : Nat := 18446744073709551616

/-- Trip count of the `render` loop: `size_t end = start + count` (wrapping
modulo 2^64), then `for(line = start; line < min(size, end); line++)`. -/
def renderedRowCount (env : Env) (start count : Nat) : Nat :=
  min env.items.length ((start + count) % sizeTMod) - start

/-- `ListingRenderer::render(start, count, userdata)`: query the font
metrics once up front, then run the clamped row loop. -/
def render (env : Env) (start count : Nat) (st : RState) : RState :=
  renderRows env start 0 (renderedRowCount env start count) (fontUnit env st)

/-- A sequence of `render` calls on the same engine instance (the comment
column persists across calls through the threaded state). -/
def renderSeq (env : Env) (calls : List (Nat × Nat)) (st : RState) : RState :=
  calls.foldl (fun st c => render env c.1 c.2 st) st

/-! ### Spec-side definitions used for refinement comparisons -/

/-- The comment join as the claim words it: all comment strings in order
joined by `" | "`, one separator between every adjacent pair. -/
def specCommentJoin : List String → String
  | [] => ""
  | [s] => s
  | s :: t => s ++ " | " ++ specCommentJoin t

/-- The mnemonic style priority as the claim words it:
invalid → stop → nop → call → jump-conditional → jump → no special style. -/
def mnemonicStyleSpec (instr : Instruction) : Option String :=
  if instr.invalid then some "instruction_invalid"
  else if instr.stop then some "instruction_stop"
  else if instr.nop then some "instruction_nop"
  else if instr.call then some "instruction_call"
  else if instr.jump && instr.conditional then some "instruction_jmp_c"
  else if instr.jump then some "instruction_jmp"
  else none

/-! ### Concrete data used to instantiate the theorems -/

/-- The all-zero initial renderer state of a fresh engine. -/
def emptyState : RState := ⟨⟨0, 0, 0, 0, "", ""⟩, 0, [], 0⟩

/-- An instruction with no flags set. -/
def plainInstruction (m : String) (cs : List String) : Instruction :=
  ⟨m, false, false, false, false, false, false, cs⟩

/-- A register operand at a given index. -/
def regOperand (i : Nat) : Operand := ⟨i, false, false, false, true⟩

/-- A small sample environment: one instruction item at address 0 inside a
segment named `"text"`, 32-bit addresses, 8×16 font. -/
def envSample : Env :=
  { fontwidth := 8, fontheight := 16, bits := 32,
    items := [⟨InstructionItem, 0⟩],
    segment := fun _ => some ⟨"text"⟩,
    instruction := fun _ => plainInstruction "mov" [],
    segmentLines := fun _ => ["seg"],
    functionParts := fun _ => ("", "f", ""),
    outOps := fun _ => [] }

/-- Like `envSample` but the instruction carries two equal comments. -/
def envDupComments : Env :=
  { envSample with instruction := fun _ => plainInstruction "mov" ["a", "a"] }

/-- Like `envSample` but the printer yields operands with indices 0, 1, 2. -/
def envThreeOps : Env :=
  { envSample with outOps := fun _ =>
      [(regOperand 0, "", "eax"), (regOperand 1, "", "ebx"), (regOperand 2, "", "ecx")] }

/-- A document whose first line is a segment item and whose second line has
the unrecognized kind tag 99. -/
def envUnknownKind : Env :=
  { envSample with items := [⟨SegmentItem, 0⟩, ⟨99, 0⟩] }

/-- Like `envSample` but no segment covers any address. -/
def envNoSegment : Env :=
  { envSample with segment := fun _ => none }

/-- Like `envSample` but with a 10-line document. -/
def envTen : Env :=
  { envSample with items := List.replicate 10 ⟨InstructionItem, 0⟩ }

/-! ### Helper lemmas: projections of the primitive state operations -/

lemma commentcolumn_renderText (st : RState) :
    (renderText st).commentcolumn = st.commentcolumn := rfl

lemma commentcolumn_setStyle (st : RState) (s : String) :
    (setStyle st s).commentcolumn = st.commentcolumn := rfl

lemma commentcolumn_setText (st : RState) (t : String) :
    (setText st t).commentcolumn = st.commentcolumn := rfl

lemma commentcolumn_advanceX (st : RState) (w : Nat) :
    (advanceX st w).commentcolumn = st.commentcolumn := rfl

lemma commentcolumn_measureAdvance (env : Env) (st : RState) (s : String) :
    (measureAdvance env st s).commentcolumn = st.commentcolumn := rfl

lemma commentcolumn_renderIndent (env : Env) (st : RState) (n : Nat) :
    (renderIndent env st n).commentcolumn = st.commentcolumn := rfl

lemma commentcolumn_renderAddressIndent (env : Env) (item : ListingItem) (st : RState) :
    (renderAddressIndent env item st).commentcolumn = st.commentcolumn := rfl

lemma commentcolumn_renderAddress (env : Env) (item : ListingItem) (st : RState) :
    (renderAddress env item st).commentcolumn = st.commentcolumn := rfl

lemma commentcolumn_renderComments (env : Env) (instr : Instruction) (st : RState) :
    (renderComments env instr st).commentcolumn = st.commentcolumn := rfl

lemma commentcolumn_renderMnemonic (env : Env) (instr : Instruction) (st : RState) :
    (renderMnemonic env instr st).commentcolumn = st.commentcolumn := by
  simp only [renderMnemonic, commentcolumn_measureAdvance, commentcolumn_renderText,
    commentcolumn_setText, apply_ite RState.commentcolumn, commentcolumn_setStyle, ite_self]

lemma commentcolumn_renderOperandEntry (env : Env) (st : RState)
    (e : Operand × String × String) :
    (renderOperandEntry env st e).commentcolumn = st.commentcolumn := by
  simp only [renderOperandEntry, commentcolumn_measureAdvance, commentcolumn_renderText,
    commentcolumn_setText, apply_ite RState.commentcolumn, commentcolumn_setStyle,
    commentcolumn_advanceX, ite_self]

lemma commentcolumn_renderOperands (env : Env) (instr : Instruction) (st : RState) :
    (renderOperands env instr st).commentcolumn = st.commentcolumn := by
  unfold renderOperands
  generalize env.outOps instr = l
  induction l generalizing st with
  | nil => rfl
  | cons e t ih =>
      simpa [commentcolumn_renderOperandEntry] using ih (renderOperandEntry env st e)

lemma commentcolumn_renderFunctionParts (env : Env) (pre sym post : String) (st : RState) :
    (renderFunctionParts env pre sym post st).commentcolumn = st.commentcolumn := by
  simp only [renderFunctionParts, commentcolumn_measureAdvance, commentcolumn_renderText,
    commentcolumn_setText, apply_ite RState.commentcolumn, commentcolumn_setStyle, ite_self]

lemma commentcolumn_renderFunction (env : Env) (item : ListingItem) (st : RState) :
    (renderFunction env item st).commentcolumn = st.commentcolumn := by
  unfold renderFunction
  rw [commentcolumn_renderFunctionParts, commentcolumn_renderAddressIndent]

lemma commentcolumn_renderSegment (env : Env) (item : ListingItem) (st : RState) :
    (renderSegment env item st).commentcolumn = st.commentcolumn := by
  unfold renderSegment
  generalize env.segmentLines (env.segment item.address) = l
  induction l generalizing st with
  | nil => rfl
  | cons s t ih => simpa using ih (renderText (setText (setStyle st "segment_fg") s))

lemma commentcolumn_renderInstruction_ge_x (env : Env) (item : ListingItem) (st : RState) :
    (renderOperands env (env.instruction item.address)
        (renderMnemonic env (env.instruction item.address)
          (renderAddress env item st))).rf.x
      ≤ (renderInstruction env item st).commentcolumn := by
  unfold renderInstruction
  dsimp only
  set stOps := renderOperands env (env.instruction item.address)
    (renderMnemonic env (env.instruction item.address) (renderAddress env item st)) with hOps
  by_cases h : stOps.rf.x > stOps.commentcolumn
  · rw [if_pos h]
    split <;> exact Nat.le_refl _
  · rw [if_neg h]
    split <;> exact Nat.le_of_not_lt h

lemma commentcolumn_renderInstruction_le (env : Env) (item : ListingItem) (st : RState) :
    st.commentcolumn ≤ (renderInstruction env item st).commentcolumn := by
  unfold renderInstruction
  dsimp only
  set stOps := renderOperands env (env.instruction item.address)
    (renderMnemonic env (env.instruction item.address) (renderAddress env item st)) with hOps
  have hcc : stOps.commentcolumn = st.commentcolumn := by
    rw [hOps, commentcolumn_renderOperands, commentcolumn_renderMnemonic,
      commentcolumn_renderAddress]
  rw [← hcc]
  by_cases h : stOps.rf.x > stOps.commentcolumn
  · rw [if_pos h]
    split <;> exact Nat.le_of_lt h
  · rw [if_neg h]
    split <;> exact Nat.le_refl _

lemma commentcolumn_renderRow_le (env : Env) (i line : Nat) (st : RState) :
    st.commentcolumn ≤ (renderRow env i line st).commentcolumn := by
  unfold renderRow
  dsimp only
  split
  · rw [commentcolumn_renderSegment]
  · split
    · rw [commentcolumn_renderFunction]
    · split
      · exact commentcolumn_renderInstruction_le env (itemAt env line)
          { st with rf := { st.rf with x := 0, y := i * st.rf.fontheight } }
      · rw [commentcolumn_renderText, commentcolumn_setText]

lemma commentcolumn_renderRows_le (env : Env) (start : Nat) :
    ∀ n i st, st.commentcolumn ≤ (renderRows env start i n st).commentcolumn := by
  intro n
  induction n with
  | zero => intro i st; exact Nat.le_refl _
  | succ m ih =>
      intro i st
      exact Nat.le_trans (commentcolumn_renderRow_le env i (start + i) st)
        (ih (i + 1) (renderRow env i (start + i) st))

lemma commentcolumn_render_le (env : Env) (start count : Nat) (st : RState) :
    st.commentcolumn ≤ (render env start count st).commentcolumn := by
  unfold render
  exact commentcolumn_renderRows_le env start _ 0 (fontUnit env st)

lemma commentcolumn_renderSeq_le (env : Env) (calls : List (Nat × Nat)) :
    ∀ st, st.commentcolumn ≤ (renderSeq env calls st).commentcolumn := by
  induction calls with
  | nil => intro st; exact Nat.le_refl _
  | cons c t ih =>
      intro st
      exact Nat.le_trans (commentcolumn_render_le env c.1 c.2 st) (ih _)

/-! ### Helper lemmas: font-query counting -/

lemma fontQueries_renderText (st : RState) :
    (renderText st).fontQueries = st.fontQueries := rfl

lemma fontQueries_setStyle (st : RState) (s : String) :
    (setStyle st s).fontQueries = st.fontQueries := rfl

lemma fontQueries_setText (st : RState) (t : String) :
    (setText st t).fontQueries = st.fontQueries := rfl

lemma fontQueries_advanceX (st : RState) (w : Nat) :
    (advanceX st w).fontQueries = st.fontQueries := rfl

lemma fontQueries_measureAdvance (env : Env) (st : RState) (s : String) :
    (measureAdvance env st s).fontQueries = st.fontQueries + 1 := rfl

lemma fontQueries_renderAddress (env : Env) (item : ListingItem) (st : RState) :
    (renderAddress env item st).fontQueries = st.fontQueries + 2 := rfl

lemma fontQueries_renderMnemonic (env : Env) (instr : Instruction) (st : RState) :
    (renderMnemonic env instr st).fontQueries = st.fontQueries + 1 := by
  simp only [renderMnemonic, fontQueries_measureAdvance, fontQueries_renderText,
    fontQueries_setText, apply_ite RState.fontQueries, fontQueries_setStyle, ite_self]

lemma fontQueries_renderOperandEntry (env : Env) (st : RState)
    (e : Operand × String × String) :
    (renderOperandEntry env st e).fontQueries = st.fontQueries + 1 := by
  simp only [renderOperandEntry, fontQueries_measureAdvance, fontQueries_renderText,
    fontQueries_setText, apply_ite RState.fontQueries, fontQueries_setStyle,
    fontQueries_advanceX, ite_self]

lemma fontQueries_renderOperands_le (env : Env) (instr : Instruction) (st : RState) :
    st.fontQueries ≤ (renderOperands env instr st).fontQueries := by
  unfold renderOperands
  generalize env.outOps instr = l
  induction l generalizing st with
  | nil => exact Nat.le_refl _
  | cons e t ih =>
      refine Nat.le_trans ?_ (ih (renderOperandEntry env st e))
      rw [fontQueries_renderOperandEntry]
      exact Nat.le_succ _

lemma fontQueries_renderComments (env : Env) (instr : Instruction) (st : RState) :
    (renderComments env instr st).fontQueries = st.fontQueries := rfl

lemma fontQueries_renderInstruction_ge (env : Env) (item : ListingItem) (st : RState) :
    st.fontQueries + 3 ≤ (renderInstruction env item st).fontQueries := by
  unfold renderInstruction
  dsimp only
  set stOps := renderOperands env (env.instruction item.address)
    (renderMnemonic env (env.instruction item.address) (renderAddress env item st)) with hOps
  have h3 : st.fontQueries + 3 ≤ stOps.fontQueries := by
    rw [hOps]
    refine Nat.le_trans ?_ (fontQueries_renderOperands_le env _ _)
    rw [fontQueries_renderMnemonic, fontQueries_renderAddress]
  split <;> split <;> exact h3

lemma fontQueries_renderIndent (env : Env) (st : RState) (n : Nat) :
    (renderIndent env st n).fontQueries = st.fontQueries + 1 := rfl

lemma fontQueries_renderAddressIndent (env : Env) (item : ListingItem) (st : RState) :
    (renderAddressIndent env item st).fontQueries = st.fontQueries + 1 := rfl

lemma fontQueries_renderFunctionParts_le (env : Env) (pre sym post : String) (st : RState) :
    st.fontQueries ≤ (renderFunctionParts env pre sym post st).fontQueries := by
  unfold renderFunctionParts
  dsimp only
  split <;> split <;>
    simp only [fontQueries_measureAdvance, fontQueries_renderText, fontQueries_setText,
      fontQueries_setStyle] <;> omega

lemma fontQueries_renderFunction_le (env : Env) (item : ListingItem) (st : RState) :
    st.fontQueries ≤ (renderFunction env item st).fontQueries := by
  unfold renderFunction
  dsimp only
  refine Nat.le_trans ?_ (fontQueries_renderFunctionParts_le env _ _ _ _)
  rw [fontQueries_renderAddressIndent]
  exact Nat.le_succ _

lemma fontQueries_renderSegment (env : Env) (item : ListingItem) (st : RState) :
    (renderSegment env item st).fontQueries = st.fontQueries := by
  unfold renderSegment
  generalize env.segmentLines (env.segment item.address) = l
  induction l generalizing st with
  | nil => rfl
  | cons s t ih => simpa using ih (renderText (setText (setStyle st "segment_fg") s))

lemma fontQueries_renderRow_le (env : Env) (i line : Nat) (st : RState) :
    st.fontQueries ≤ (renderRow env i line st).fontQueries := by
  unfold renderRow
  dsimp only
  split
  · rw [fontQueries_renderSegment]
  · split
    · exact fontQueries_renderFunction_le env (itemAt env line)
        { st with rf := { st.rf with x := 0, y := i * st.rf.fontheight } }
    · split
      · refine Nat.le_trans (Nat.le_add_right _ 3) ?_
        exact fontQueries_renderInstruction_ge env (itemAt env line)
          { st with rf := { st.rf with x := 0, y := i * st.rf.fontheight } }
      · rw [fontQueries_renderText, fontQueries_setText]

lemma fontQueries_renderRows_le (env : Env) (start : Nat) :
    ∀ n i st, st.fontQueries ≤ (renderRows env start i n st).fontQueries := by
  intro n
  induction n with
  | zero => intro i st; exact Nat.le_refl _
  | succ m ih =>
      intro i st
      exact Nat.le_trans (fontQueries_renderRow_le env i (start + i) st)
        (ih (i + 1) (renderRow env i (start + i) st))

lemma fontQueries_render_ge (env : Env) (start count : Nat) (st : RState) :
    st.fontQueries + 1 ≤ (render env start count st).fontQueries := by
  unfold render
  exact fontQueries_renderRows_le env start _ 0 (fontUnit env st)

/-! ### Helper lemmas: the comment join -/

/-- The `" | " ++ s` blocks appended after the first comment. -/
def sepTail : List String → String
  | [] => ""
  | s :: t => " | " ++ s ++ sepTail t

lemma specCommentJoin_cons_eq_sepTail (h : String) :
    ∀ t : List String, specCommentJoin (h :: t) = h ++ sepTail t := by
  intro t
  induction t generalizing h with
  | nil => simp [specCommentJoin, sepTail, String.append_empty]
  | cons s r ih =>
      simp only [specCommentJoin, sepTail, ih s]
      rw [String.append_assoc, String.append_assoc]

lemma comment_foldl_of_ne (h : String) :
    ∀ (t : List String) (acc : String), (∀ s ∈ t, s ≠ h) →
      t.foldl (fun acc s => acc ++ (if s ≠ h then " | " else "") ++ s) acc
        = acc ++ sepTail t := by
  intro t
  induction t with
  | nil => intro acc _; simp [sepTail, String.append_empty]
  | cons s r ih =>
      intro acc H
      have hs : s ≠ h := H s (List.mem_cons_self s r)
      simp only [List.foldl_cons, if_pos hs, sepTail]
      rw [ih _ (fun a ha => H a (List.mem_cons_of_mem s ha))]
      rw [String.append_assoc, String.append_assoc, String.append_assoc]

lemma commentString_eq_specCommentJoin (instr : Instruction)
    (h : instr.comments ≠ [])
    (hd : ∀ s ∈ instr.comments.tail, s ≠ instr.comments.headD "") :
    commentString instr = "# " ++ specCommentJoin instr.comments := by
  obtain ⟨c, t, hct⟩ : ∃ c t, instr.comments = c :: t := by
    cases hc : instr.comments with
    | nil => exact absurd hc h
    | cons c t => exact ⟨c, t, rfl⟩
  unfold commentString
  rw [hct] at hd ⊢
  simp only [List.headD_cons, List.tail_cons] at hd ⊢
  simp only [List.foldl_cons]
  rw [comment_foldl_of_ne c t _ hd, specCommentJoin_cons_eq_sepTail c t]
  have hne : (if c ≠ c then " | " else "") = "" := if_neg (fun hne => hne rfl)
  rw [hne, String.append_empty, String.append_assoc]

/-! ### Claim theorems -/

/-- C1, counterexample: with the comment list `["a", "a"]` the code renders
the fragment text `"# aa"`, not `"# a | a"` — `commentString` skips the
separator before every comment string-equal to the first one, so the
claimed join does not hold regardless of the comment values. -/
theorem c1_comment_join_counterexample :
    ((render envDupComments 0 1 emptyState).frags.getD 3 default).text = "# aa"
    ∧ "# " ++ specCommentJoin ["a", "a"] = "# a | a"
    ∧ ((render envDupComments 0 1 emptyState).frags.getD 3 default).text
        ≠ "# " ++ specCommentJoin ["a", "a"] := by
  decide

/-- C1 (amended): for every instruction with a non-empty comment list in
which no later comment equals the first comment string, the rendered
comment fragment text is `"# "` followed by the comments joined by
`" | "`; a comment equal to the first is instead appended with no
preceding separator. -/
theorem c1_comment_join (env : Env) (instr : Instruction) (st : RState)
    (h : instr.comments ≠ [])
    (hd : ∀ s ∈ instr.comments.tail, s ≠ instr.comments.headD "") :
    (renderComments env instr st).frags
      = st.frags ++ [⟨(st.commentcolumn + INDENT_WIDTH) * st.rf.fontwidth, st.rf.y,
          "comment_fg", "# " ++ specCommentJoin instr.comments⟩] := by
  unfold renderComments setStyle setText renderText
  dsimp only
  rw [commentString_eq_specCommentJoin instr h hd]

/-- C1 witness: the spec scenario `["sets eax", "see also foo"]`. -/
theorem c1_comment_join_witness :
    (renderComments envSample
        (plainInstruction "mov" ["sets eax", "see also foo"]) emptyState).frags
      = [⟨0, 0, "comment_fg", "# sets eax | see also foo"⟩] :=
  (c1_comment_join envSample (plainInstruction "mov" ["sets eax", "see also foo"])
    emptyState (by decide) (by decide)).trans (by decide)

/-- C2, counterexample: `size_t end = start + count` wraps modulo 2^64, so
with a 10-line document, `start = 5` and `count = 2^64 - 3` the wrapped end
is 2 and the program renders 0 rows, while the claimed formula
`min(count, documentSize - start)` gives 5. -/
theorem c2_render_row_count_counterexample :
    renderedRowCount envTen 5 (sizeTMod - 3) = 0
    ∧ min (sizeTMod - 3) (envTen.items.length - 5) = 5
    ∧ (render envTen 5 (sizeTMod - 3) emptyState).frags = []
    ∧ (0 : Nat) ≠ 5 := by
  decide

/-- C2 (amended): the loop end is `(start + count) mod 2^64`.  Whenever
`start + count` does not overflow `size_t`, the number of rows rendered
equals `min(count, documentSize - start)` (zero when
`start ≥ documentSize`); on overflow (for in-range `start`, `count`) the
wrapped end lies below `start` and zero rows are rendered.  In every case
the row count never exceeds `count`, and clamping near the end of the
document is not an error (the loop simply runs fewer iterations). -/
theorem c2_render_row_count (env : Env) (start count : Nat) (st : RState) :
    render env start count st
        = renderRows env start 0 (renderedRowCount env start count) (fontUnit env st)
    ∧ (start + count < sizeTMod →
        renderedRowCount env start count = min count (env.items.length - start))
    ∧ renderedRowCount env start count ≤ count
    ∧ (start < sizeTMod → count < sizeTMod → sizeTMod ≤ start + count →
        renderedRowCount env start count = 0)
    ∧ (env.items.length ≤ start → renderedRowCount env start count = 0) := by
  refine ⟨rfl, ?_, ?_, ?_, ?_⟩
  · intro h
    unfold renderedRowCount
    rw [Nat.mod_eq_of_lt h]
    omega
  · unfold renderedRowCount
    have he : (start + count) % sizeTMod ≤ start + count := Nat.mod_le _ _
    unfold sizeTMod at he ⊢
    omega
  · intro h1 h2 h3
    unfold renderedRowCount
    have hlt : start + count - sizeTMod < sizeTMod := by omega
    rw [Nat.mod_eq_sub_mod h3, Nat.mod_eq_of_lt hlt]
    omega
  · intro h
    unfold renderedRowCount
    have he : (start + count) % sizeTMod ≤ start + count := Nat.mod_le _ _
    unfold sizeTMod at he ⊢
    omega

/-- C2 witness: no-overflow formula, the never-exceeds bound, the overflow
case, and the past-the-end case, each at concrete inputs. -/
theorem c2_render_row_count_witness :
    renderedRowCount envSample 0 1 = min 1 (envSample.items.length - 0)
    ∧ renderedRowCount envSample 5 3 = 0
    ∧ renderedRowCount envTen 5 (sizeTMod - 3) = 0 :=
  ⟨(c2_render_row_count envSample 0 1 emptyState).2.1 (by decide),
   (c2_render_row_count envSample 5 3 emptyState).2.2.2.2 (by decide),
   (c2_render_row_count envTen 5 (sizeTMod - 3) emptyState).2.2.2.1
     (by decide) (by decide) (by decide)⟩

/-- C3 (confirmed): the persisted comment column never decreases across any
sequence of `render` calls on one engine instance; after `renderInstruction`
it is at least the cursor x reached by that instruction after
mnemonic+operands; and `renderComments` (run after the bookkeeping) never
changes the comment column. -/
theorem c3_commentcolumn_monotone :
    (∀ env calls st, st.commentcolumn ≤ (renderSeq env calls st).commentcolumn)
    ∧ (∀ env start count st,
        st.commentcolumn ≤ (render env start count st).commentcolumn)
    ∧ (∀ env item st,
        (renderOperands env (env.instruction item.address)
            (renderMnemonic env (env.instruction item.address)
              (renderAddress env item st))).rf.x
          ≤ (renderInstruction env item st).commentcolumn)
    ∧ (∀ env instr st, (renderComments env instr st).commentcolumn = st.commentcolumn) :=
  ⟨fun env calls st => commentcolumn_renderSeq_le env calls st,
   fun env start count st => commentcolumn_render_le env start count st,
   fun env item st => commentcolumn_renderInstruction_ge_x env item st,
   fun env instr st => commentcolumn_renderComments env instr st⟩

/-- C6, counterexample: a render call over a single instruction row makes 4
`fontUnit` queries (one up-front plus one per `measureString` call), not
exactly one — `measureString` re-queries the backend on every call. -/
theorem c6_font_queries_counterexample :
    (render envSample 0 1 emptyState).fontQueries = 4
    ∧ (render envSample 0 1 emptyState).fontQueries ≠ emptyState.fontQueries + 1 := by
  decide

/-- C6 (amended): during one `render` call the cursor metrics come from a
single up-front `fontUnit` query, but every `measureString` call during
layout performs one further backend query — at least three per instruction
row; with fixed metrics every query returns the same values, so metric
changes still take effect only on the next call. -/
theorem c6_font_queries :
    (∀ env st s, (measureString env st s).1.fontQueries = st.fontQueries + 1)
    ∧ (∀ env start count st,
        st.fontQueries + 1 ≤ (render env start count st).fontQueries)
    ∧ (∀ env item st,
        st.fontQueries + 3 ≤ (renderInstruction env item st).fontQueries) :=
  ⟨fun _ _ _ => rfl,
   fun env start count st => fontQueries_render_ge env start count st,
   fun env item st => fontQueries_renderInstruction_ge env item st⟩

/-- C4 (confirmed): the mnemonic fragment style is chosen by the first
matching flag in the order invalid → stop → nop → call → jump-conditional →
jump, with no style assignment (the incoming cursor style is kept) when no
flag matches; the text is the mnemonic plus one trailing space and the
cursor advances by the measured width of that text. -/
theorem c4_mnemonic_style (env : Env) (instr : Instruction) (st : RState) :
    (renderMnemonic env instr st).frags
        = st.frags ++ [⟨st.rf.x, st.rf.y,
            (mnemonicStyleSpec instr).getD st.rf.style, instr.mnemonic ++ " "⟩]
    ∧ (renderMnemonic env instr st).rf.x
        = st.rf.x + (instr.mnemonic ++ " ").length * env.fontwidth := by
  rcases instr with ⟨m, inv, stp, np, cl, jmp, cond, cs⟩
  cases inv <;> cases stp <;> cases np <;> cases cl <;> cases jmp <;> cases cond <;>
    simp [renderMnemonic, mnemonicStyleSpec, setStyle, setText, renderText,
      measureAdvance, measureString, advanceX]

/-- C5 (confirmed): an unstyled `", "` separator fragment is emitted exactly
before each operand of index > 0 (never before index 0, so indices
`[0,1,2]` yield exactly two separators), the separator advances x by the
fixed amount `2 × fontwidth`, and the whole operand step performs exactly
one `measureString` font query — the separator width is not measured. -/
theorem c5_operand_separator (env : Env) (st : RState)
    (op : Operand) (opsize opstr : String) :
    (renderOperandEntry env st (op, opsize, opstr)).frags
        = st.frags
          ++ (if op.index > 0 then [⟨st.rf.x, st.rf.y, "", ", "⟩] else [])
          ++ [⟨st.rf.x + (if op.index > 0 then st.rf.fontwidth * 2 else 0), st.rf.y,
                (if op.numeric then (if op.memory then "memory_fg" else "immediate_fg")
                 else if op.displacement then "displacement_fg"
                 else if op.register then "register_fg"
                 else if op.index > 0 then "" else st.rf.style),
                (if opsize = "" then "" else opsize ++ " ") ++ opstr⟩]
    ∧ (renderOperandEntry env st (op, opsize, opstr)).fontQueries = st.fontQueries + 1
    ∧ ((renderOperands envThreeOps (plainInstruction "mov" [])
          (fontUnit envThreeOps emptyState)).frags.filter
            (fun f => f.text == ", ")).length = 2 := by
  refine ⟨?_, fontQueries_renderOperandEntry env st _, by decide⟩
  rcases op with ⟨i, nu, me, di, re⟩
  cases nu <;> cases me <;> cases di <;> cases re <;>
    by_cases hi : i > 0 <;> by_cases hs : opsize = "" <;>
      simp [renderOperandEntry, setStyle, setText, renderText, measureAdvance,
        measureString, advanceX, hi, hs]

/-- C7 (confirmed): in function rendering, when `post` is non-empty the
cursor advances by the measured width of `sym` alone before `post` is
emitted (its x is the sym position plus `sym.length × fontwidth`, with no
contribution of `pre` beyond the advance already made for `pre` itself);
when `post` is empty, x is not advanced after `sym` and no post fragment is
emitted. -/
theorem c7_function_post_width (env : Env) (pre sym post : String) (st : RState) :
    (renderFunctionParts env pre sym post st).rf.x
        = st.rf.x + (if pre = "" then 0 else pre.length * env.fontwidth)
          + (if post = "" then 0 else sym.length * env.fontwidth)
    ∧ (renderFunctionParts env pre sym post st).frags
        = st.frags
          ++ (if pre = "" then [] else [⟨st.rf.x, st.rf.y, "function_fg", pre⟩])
          ++ [⟨st.rf.x + (if pre = "" then 0 else pre.length * env.fontwidth),
                st.rf.y, "function_fg", sym⟩]
          ++ (if post = "" then []
              else [⟨st.rf.x + (if pre = "" then 0 else pre.length * env.fontwidth)
                      + sym.length * env.fontwidth, st.rf.y, "function_fg", post⟩]) := by
  by_cases hp : pre = "" <;> by_cases hq : post = "" <;>
    simp [renderFunctionParts, setStyle, setText, renderText, measureAdvance,
      measureString, advanceX, hp, hq]

/-- C8 (confirmed): for an item whose address no segment covers,
`renderAddress` does not fail and emits the address-prefix fragment with
the sentinel text `"unk:<hex address>"` (followed by the usual unstyled
indent fragment). -/
theorem c8_missing_segment (env : Env) (item : ListingItem) (st : RState)
    (h : env.segment item.address = none) :
    (renderAddress env item st).frags
      = st.frags
        ++ [⟨st.rf.x, st.rf.y, "address_fg", "unk:" ++ hexAddress env item.address⟩,
            ⟨st.rf.x + ("unk:" ++ hexAddress env item.address).length * env.fontwidth,
              st.rf.y, "", "  "⟩] := by
  have hu : ("unk" ++ ":" : String) = "unk:" := rfl
  have hi : String.mk (List.replicate INDENT_WIDTH ' ') = "  " := rfl
  simp [renderAddress, renderIndent, setStyle, setText, renderText, measureAdvance,
    measureString, advanceX, h, hu, hi]

/-- C8 witness: address 26 with 32-bit addresses renders as
`"unk:0000001a"`. -/
theorem c8_missing_segment_witness :
    (renderAddress envNoSegment ⟨InstructionItem, 26⟩ emptyState).frags
      = [⟨0, 0, "address_fg", "unk:0000001a"⟩, ⟨96, 0, "", "  "⟩] :=
  (c8_missing_segment envNoSegment ⟨InstructionItem, 26⟩ emptyState rfl).trans (by decide)

/-- C9, counterexample: the unknown-kind fallback fragment does not get a
default style — on a row following a segment row it carries the
`"segment_fg"` style left in the cursor by the previous row. -/
theorem c9_unknown_kind_counterexample :
    ((render envUnknownKind 0 2 emptyState).frags.getD 1 default).text
        = "Unknown Type: 99"
    ∧ ((render envUnknownKind 0 2 emptyState).frags.getD 1 default).style
        = "segment_fg"
    ∧ "segment_fg" ≠ "" := by
  decide

/-- C9 (amended): for every listing item whose kind is not Segment,
Function or Instruction, `render` emits exactly one fragment for that row,
with text `"Unknown Type: "` followed by the numeric kind, at the current
cursor, and never throws; its style is the cursor style carried over from
previously emitted fragments (the default empty style only when no earlier
fragment set one), not a reset default. -/
theorem c9_unknown_kind (env : Env) (i line : Nat) (st : RState)
    (h1 : (itemAt env line).type ≠ SegmentItem)
    (h2 : (itemAt env line).type ≠ FunctionItem)
    (h3 : (itemAt env line).type ≠ InstructionItem) :
    (renderRow env i line st).frags
      = st.frags ++ [⟨0, i * st.rf.fontheight, st.rf.style,
          "Unknown Type: " ++ toString (itemAt env line).type⟩] := by
  unfold renderRow
  dsimp only
  rw [if_neg h1, if_neg h2, if_neg h3]
  rfl

/-- C9 witness: kind 99 on line 1 yields the single fallback fragment. -/
theorem c9_unknown_kind_witness :
    (renderRow envUnknownKind 1 1 emptyState).frags
      = [⟨0, 0, "", "Unknown Type: 99"⟩] :=
  (c9_unknown_kind envUnknownKind 1 1 emptyState (by decide) (by decide)
    (by decide)).trans (by decide)

/-- C10, counterexample: a mnemonic whose instruction matches none of the
flag priorities is emitted with the empty style — the indent rendered after
the address prefix cleared the cursor style — not with the address-prefix
`"address_fg"` style as the claim states. -/
theorem c10_style_inheritance_counterexample :
    ((render envSample 0 1 emptyState).frags.getD 2 default).text = "mov "
    ∧ ((render envSample 0 1 emptyState).frags.getD 2 default).style = ""
    ∧ ((render envSample 0 1 emptyState).frags.getD 0 default).style = "address_fg"
    ∧ "" ≠ "address_fg" := by
  decide

/-- C10 (amended): emitting a fragment never changes the cursor (so a
fragment without an explicit style assignment inherits the current cursor
style, and nothing resets the style between fragments or rows); but the
cursor style after the address prefix is the empty style cleared by the
trailing indent, so a mnemonic matching no flag priority is emitted with
the incoming (empty) style rather than `"address_fg"`. -/
theorem c10_style_inheritance :
    (∀ st, (renderText st).rf = st.rf)
    ∧ (∀ env item st, (renderAddress env item st).rf.style = "")
    ∧ (∀ env instr st,
        instr.invalid = false → instr.stop = false → instr.nop = false →
        instr.call = false → instr.jump = false →
        (renderMnemonic env instr st).frags
          = st.frags ++ [⟨st.rf.x, st.rf.y, st.rf.style, instr.mnemonic ++ " "⟩]) := by
  refine ⟨fun st => rfl, fun env item st => rfl, ?_⟩
  intro env instr st h1 h2 h3 h4 h5
  simp [renderMnemonic, h1, h2, h3, h4, h5, setText, renderText,
    measureAdvance, measureString, advanceX]

/-- C10 witness: a flagless `"mov"` on the empty cursor state is emitted
with the empty style. -/
theorem c10_style_inheritance_witness :
    (renderMnemonic envSample (plainInstruction "mov" []) emptyState).frags
      = [⟨0, 0, "", "mov "⟩] :=
  (c10_style_inheritance.2.2 envSample (plainInstruction "mov" []) emptyState
    rfl rfl rfl rfl rfl).trans (by decide)

end REDasm
